import Mathlib

/-!
Verification development for the Report PDF Composer of elBullistatistics
(src/pdf.py).  The module is embedded shallowly: lengths are exact
rationals (reportlab points; 1 cm = 72/2.54 points), image loading is a
map from paths to optional intrinsic sizes, canvas drawing is recorded as
a list of drawn elements, and the platypus document engine is modelled as
a small step machine over the story list built by build_pdf.
-/

namespace ElBulli

/-- One centimetre in reportlab points (72 points per inch, 2.54 cm per
inch); the length unit used throughout pdf.py. -/
def cm : ℚ := 3600 / 127

/-- Width of a landscape A4 page in points (297 mm). -/
def pageW : ℚ := 297 / 10 * cm

/-- Height of a landscape A4 page in points (210 mm). -/
def pageH : ℚ := 21 * cm

/-- The constructor arguments of the CenteredImage flowable
(pdf.py lines 40-51).  draw_w, draw_h and scale default to None and fit
to False in the source. -/
structure CenteredImage where
  path : String
  draw_w : Option ℚ := none
  draw_h : Option ℚ := none
  scale : Option ℚ := none
  fit : Bool := false
deriving DecidableEq

/-- Python truthiness of an optional float: None and 0.0 are falsy,
anything else is truthy.  This is the test performed by the
elif self.draw_w / elif self.draw_h chain in CenteredImage.wrap. -/
def truthy : Option ℚ → Bool
  | none => false
  | some x => decide (x ≠ 0)

/-- The draw size computed by the hint chain of CenteredImage.wrap
(pdf.py lines 58-70), before the optional fit adjustment. -/
def wrapBaseSize (c : CenteredImage) (iw ih : ℚ) : ℚ × ℚ :=
  match c.scale with
  | some s => (iw * s, ih * s)
  | none =>
    if truthy c.draw_w && truthy c.draw_h then
      let r := min (c.draw_w.getD 0 / iw) (c.draw_h.getD 0 / ih)
      (iw * r, ih * r)
    else if truthy c.draw_w then
      let r := c.draw_w.getD 0 / iw
      (iw * r, ih * r)
    else if truthy c.draw_h then
      let r := c.draw_h.getD 0 / ih
      (iw * r, ih * r)
    else
      (iw, ih)

/-- The extra shrink factor applied when the fit flag is set
(pdf.py line 73): min(availWidth / dw, availHeight / dh, 1.0). -/
def fitScale (availWidth availHeight dw dh : ℚ) : ℚ :=
  min (availWidth / dw) (min (availHeight / dh) 1)

/-- The full effect of one call to CenteredImage.wrap: the stored
fields self._dw, self._dh, self.availW, self.availH, and the pair the
method returns to the layout engine. -/
structure WrapResult where
  dw : ℚ
  dh : ℚ
  availW : ℚ
  availH : ℚ
  ret : ℚ × ℚ
deriving DecidableEq

/-- CenteredImage.wrap (pdf.py lines 53-78) for an image of intrinsic
size (iw, ih): compute the draw size from the hints, shrink it when the
fit flag is set, store the geometry, and return (availWidth, availHeight)
to the caller. -/
def CenteredImage.wrap (c : CenteredImage) (iw ih availWidth availHeight : ℚ) :
    WrapResult :=
  let base := wrapBaseSize c iw ih
  let final :=
    if c.fit then
      (base.1 * fitScale availWidth availHeight base.1 base.2,
       base.2 * fitScale availWidth availHeight base.1 base.2)
    else base
  { dw := final.1, dh := final.2, availW := availWidth, availH := availHeight,
    ret := (availWidth, availHeight) }

/-- The (x, y) coordinate at which CenteredImage.draw paints the image
(pdf.py lines 82-83): x = (availW - dw) / 2 - 1*cm, y = (availH - dh) / 2. -/
def drawXY (w : WrapResult) : ℚ × ℚ :=
  ((w.availW - w.dw) / 2 - 1 * cm, (w.availH - w.dh) / 2)

/-- The draw-size precedence exactly as the specification words it, with
a width/height hint counting as given whenever it is supplied (spec-side
definition, to be compared with wrapBaseSize). -/
def specHintSize (c : CenteredImage) (iw ih : ℚ) : ℚ × ℚ :=
  match c.scale with
  | some s => (iw * s, ih * s)
  | none =>
    match c.draw_w, c.draw_h with
    | some w, some h =>
        let r := min (w / iw) (h / ih)
        (iw * r, ih * r)
    | some w, none => (iw * (w / iw), ih * (w / iw))
    | none, some h => (iw * (h / ih), ih * (h / ih))
    | none, none => (iw, ih)

/-- The vertical position of the cover title (pdf.py line 109):
max(1.0*cm, min(text_from_bottom_cm*cm, height - 1.5*cm)). -/
def coverTextY (text_from_bottom_cm height : ℚ) : ℚ :=
  max (1 * cm) (min (text_from_bottom_cm * cm) (height - 3 / 2 * cm))

/-- Decimal digit as a character. -/
def digitChar (d : ℕ) : Char := Char.ofNat (48 + d)

/-- Decimal digits of a natural number, most significant first, with an
explicit fuel argument (one unit of fuel per digit suffices). -/
def natDigitsAux : ℕ → ℕ → List Char
  | 0, _ => []
  | fuel + 1, n =>
    if n = 0 then [] else natDigitsAux fuel (n / 10) ++ [digitChar (n % 10)]

/-- Decimal representation of a natural number, as Python str would
produce it. -/
def natDigits (n : ℕ) : List Char :=
  if n = 0 then ['0'] else natDigitsAux (n + 1) n

/-- Insert a comma after every group of three characters, working on a
reversed digit list; fuel bounded by the list length. -/
def groupAux : ℕ → List Char → List Char
  | 0, ds => ds
  | fuel + 1, ds =>
    if ds.length ≤ 3 then ds
    else ds.take 3 ++ ',' :: groupAux fuel (ds.drop 3)

/-- The Python format string result f-string value with comma grouping,
as in format(n, ",") for a natural number n. -/
def pyFormatComma (n : ℕ) : List Char :=
  (groupAux (natDigits n).length (natDigits n).reverse).reverse

/-- The visitor-count string of the footer (pdf.py line 138): format the
integer with comma thousands grouping, then replace every comma with a
dot. -/
def vis_str (n : ℕ) : String :=
  String.mk ((pyFormatComma n).map (fun ch => if ch = ',' then '.' else ch))

/-- Decimal representation of an integer, as Python str would produce
it; used for the footer page number. -/
def intStr (i : ℤ) : String :=
  if i < 0 then String.mk ('-' :: natDigits i.natAbs)
  else String.mk (natDigits i.toNat)

/-- How a drawn string is anchored at its x coordinate: drawString,
drawCentredString or drawRightString. -/
inductive Anchor
  | left
  | centred
  | right
deriving DecidableEq

/-- One element painted on the canvas by an onPage callback. -/
inductive Drawn
  | text (anchor : Anchor) (x y : ℚ) (font : String) (size : ℚ) (s : String)
  | image (path : String) (x y w h : ℚ)
deriving DecidableEq

/-- The failure conditions of a build: ImageReader raising an IOError
for an unreadable or corrupt image file. -/
inductive BuildError
  | imageUnreadable (path : String)
deriving DecidableEq

/-- The elements painted by draw_cover once the cover background image
has been read successfully (pdf.py lines 98-110). -/
def coverDrawList (width height iw ih : ℚ) (image_path file_name : String)
    (image_offset_cm text_from_bottom_cm : ℚ) : List Drawn :=
  let max_w := width * (12 / 10)
  let max_h := height * (9 / 10)
  let scale := min (max_w / iw) (max_h / ih)
  let dw := iw * scale
  let dh := ih * scale
  let image_y := (height - dh) / 2 + image_offset_cm * cm
  let image_x := (width - dw) / 2
  let text_y := coverTextY text_from_bottom_cm height
  [Drawn.image image_path image_x image_y dw dh,
   Drawn.text .centred (width / 2) text_y "Raleway-Bold" 28 file_name]

/-- draw_cover (pdf.py lines 93-111): read the background image (an
unreadable file raises and propagates), scale it to fit an oversized
bounding box, paint it centred with a vertical offset, and paint the
clamped bold title.  The filesystem is the map fs from paths to
intrinsic image sizes. -/
def draw_cover (fs : String → Option (ℚ × ℚ)) (width height : ℚ)
    (image_path file_name : String) (image_offset_cm text_from_bottom_cm : ℚ) :
    Except BuildError (List Drawn) :=
  match fs image_path with
  | none => .error (.imageUnreadable image_path)
  | some (iw, ih) =>
      .ok (coverDrawList width height iw ih image_path file_name
        image_offset_cm text_from_bottom_cm)

/-- Path of the decorative footer logo read by draw_common_elements. -/
def logoPath : String := "resources/water.png"

/-- draw_common_elements (pdf.py lines 113-150): the header and footer
painted on every body page.  sw is the font-metric stringWidth function
of the canvas; docPage is doc.page at the time the callback runs.  The
logo block sits inside try/except Exception: pass, so an unreadable logo
contributes nothing and the failure is swallowed. -/
def draw_common_elements (sw : String → String → ℚ → ℚ)
    (fs : String → Option (ℚ × ℚ)) (width height : ℚ) (file_name : String)
    (total_visitors : ℕ) (docPage : ℕ) (title : String) : List Drawn :=
  let headerTitle := Drawn.text .centred (width / 2) (height - 12 / 10 * cm)
    "Raleway-Bold" 14 title
  let fechaLabel := Drawn.text .left (2 * cm) (height - 12 / 10 * cm)
    "Raleway-Bold" 10 "Fecha:"
  let off := sw "Fecha:" "Raleway-Bold" 10 + 4
  let fechaValue := Drawn.text .left (2 * cm + off) (height - 12 / 10 * cm)
    "Raleway" 10 file_name
  let logo : List Drawn :=
    match fs logoPath with
    | some (iw, ih) =>
        let target_h := 12 / 10 * cm
        let scale := target_h / ih
        let dw := iw * scale
        let dh := ih * scale
        [Drawn.image logoPath (width - 2 * cm - dw)
          (height - 12 / 10 * cm - dh * (1 / 2)) dw dh]
    | none => []
  let vstr := vis_str total_visitors
  let label := "Visitantes totales:"
  let lw := sw label "Raleway-Bold" 10
  let vw := sw vstr "Raleway" 10
  let start_x := (width - (lw + vw + 4)) / 2
  let visLabel := Drawn.text .left start_x (12 / 10 * cm) "Raleway-Bold" 10 label
  let visValue := Drawn.text .left (start_x + lw + 4) (12 / 10 * cm) "Raleway" 10 vstr
  let shown_page : ℤ := (docPage : ℤ) - 1
  let pageNum := Drawn.text .right (width - 2 * cm) (12 / 10 * cm) "Raleway" 10
    (intStr shown_page)
  [headerTitle, fechaLabel, fechaValue] ++ logo ++ [visLabel, visValue, pageNum]

/-- The two page templates registered by build_pdf (pdf.py lines 179-190). -/
inductive Tpl
  | COVER
  | BODY
deriving DecidableEq

/-- A flowable placed into a frame by the layout engine. -/
inductive Item
  | text (s : String)
  | image (path : String) (dw dh : ℚ)
deriving DecidableEq

/-- Modelled from the layout library at the module boundary: the usable
width of the frame of each template; reportlab subtracts its default
6-point padding on each side from the declared frame width
(COVER frame: 1000 cm square at the origin; BODY frame: 27.7 cm wide,
pdf.py lines 176-177). -/
def frameAvailW : Tpl → ℚ
  | .COVER => 1000 * cm - 12
  | .BODY => 277 / 10 * cm - 12

/-- Usable height of the frame of each template (COVER: 1000 cm; BODY:
16 cm; minus the default 6-point padding on each side). -/
def frameAvailH : Tpl → ℚ
  | .COVER => 1000 * cm - 12
  | .BODY => 16 * cm - 12

/-- The title passed to draw_common_elements by build_pdf. -/
def defaultTitle : String := "Estadísticas elBulli1846"

/-- One finished or in-progress page of the rendered document: its
template, the value of doc.page when its onPage callback ran, the
elements that callback painted, the flowables placed in its frame, and
the usable width and remaining height of that frame. -/
structure Page where
  tpl : Tpl
  engPage : ℕ
  decorations : List Drawn
  items : List Item
  availW : ℚ
  remH : ℚ
deriving DecidableEq

/-- The state of the document engine while consuming the story:
finished pages, the doc.page counter, the template of the page being
laid out, the pending NextPageTemplate selection, and the open page
(none while a PageBegin action is hanging). -/
structure RState where
  pages : List Page
  engPage : ℕ
  curTpl : Tpl
  nextTpl : Option Tpl
  cur : Option Page
deriving DecidableEq

/-- The environment of one build: the readable image files with their
intrinsic sizes, the font-metric stringWidth function, the layout
height of the placeholder Paragraph (external text-layout behaviour of
the library on the one-space paragraph), and the file_name and
total_visitors arguments of build_pdf. -/
structure Env where
  fs : String → Option (ℚ × ℚ)
  sw : String → String → ℚ → ℚ
  paraH : ℚ
  file_name : String
  total_visitors : ℕ

/-- The story elements appended by build_pdf (pdf.py lines 199-208). -/
inductive StoryElem
  | paragraph (s : String)
  | nextPageTemplate (t : Tpl)
  | pageBreak
  | centImage (c : CenteredImage)
deriving DecidableEq

/-- The onPage callback of each template (pdf.py lines 179-190): COVER
runs draw_cover on resources/cover.jpg, BODY runs draw_common_elements. -/
def onPageDraw (env : Env) (tpl : Tpl) (pg : ℕ) : Except BuildError (List Drawn) :=
  match tpl with
  | .COVER =>
      draw_cover env.fs pageW pageH "resources/cover.jpg" env.file_name (-1) (58 / 10)
  | .BODY =>
      .ok (draw_common_elements env.sw env.fs pageW pageH env.file_name
        env.total_visitors pg defaultTitle)

/-- handle_pageBegin of the document engine: increment doc.page, run the
onPage callback of the current template, and open a fresh frame. -/
def beginPage (env : Env) (st : RState) : Except BuildError RState :=
  let pg := st.engPage + 1
  match onPageDraw env st.curTpl pg with
  | .error e => .error e
  | .ok dec =>
      .ok { st with
            engPage := pg,
            cur := some { tpl := st.curTpl, engPage := pg, decorations := dec,
                          items := [], availW := frameAvailW st.curTpl,
                          remH := frameAvailH st.curTpl } }

/-- clean_hanging of the document engine: a hanging PageBegin action is
performed before the next flowable is handled. -/
def cleanHanging (env : Env) (st : RState) : Except BuildError RState :=
  match st.cur with
  | some _ => .ok st
  | none => beginPage env st

/-- handle_pageEnd of the document engine: show the open page, switch to
the template selected by a pending NextPageTemplate directive (consumed
once), and hang a PageBegin for the next flowable. -/
def closePage (st : RState) (op : Page) : RState :=
  { pages := st.pages ++ [op], engPage := st.engPage,
    curTpl := st.nextTpl.getD st.curTpl, nextTpl := none, cur := none }

/-- Place a flowable of wrapped height h into the open frame. -/
def placeItem (it : Item) (h : ℚ) (op : Page) : Page :=
  { op with items := op.items ++ [it], remH := op.remH - h }

/-- One step of the document engine on one story element.  A hanging
PageBegin is performed first.  A Paragraph whose wrapped height exceeds
the remaining frame height moves to a fresh page (a paragraph taller
than an empty frame is outside the model; the library raises a layout
error there and build_pdf never produces one).  A CenteredImage first
reads its file, propagating the IOError of an unreadable path, and its
wrap returns exactly the available size, so it always fits and consumes
the whole remaining frame. -/
def step (env : Env) (st : RState) (e : StoryElem) : Except BuildError RState :=
  match cleanHanging env st with
  | .error err => .error err
  | .ok st1 =>
    match st1.cur with
    | none => .ok st1
    | some op =>
      match e with
      | .paragraph s =>
          if env.paraH ≤ op.remH then
            .ok { st1 with cur := some (placeItem (.text s) env.paraH op) }
          else
            match beginPage env (closePage st1 op) with
            | .error err => .error err
            | .ok st2 =>
                match st2.cur with
                | none => .ok st2
                | some op2 =>
                    .ok { st2 with cur := some (placeItem (.text s) env.paraH op2) }
      | .nextPageTemplate t => .ok { st1 with nextTpl := some t }
      | .pageBreak => .ok (closePage st1 op)
      | .centImage c =>
          match env.fs c.path with
          | none => .error (.imageUnreadable c.path)
          | some (iw, ih) =>
              let w := CenteredImage.wrap c iw ih op.availW op.remH
              .ok { st1 with
                cur := some (placeItem (.image c.path w.dw w.dh) w.ret.2 op) }

/-- Run the document engine over a story. -/
def runStory (env : Env) : List StoryElem → RState → Except BuildError RState
  | [], st => .ok st
  | e :: es, st =>
    match step env st e with
    | .error err => .error err
    | .ok st' => runStory env es st'

/-- The CenteredImage flowable build_pdf appends for one page image
(pdf.py line 206): CenteredImage(p, draw_w=26*cm). -/
def pageImageFlowable (p : String) : CenteredImage :=
  { path := p, draw_w := some (26 * cm) }

/-- The story tail built by the loop over page_images (pdf.py lines
204-208): one CenteredImage per path, with a PageBreak after every
image except the last. -/
def storyImages : List String → List StoryElem
  | [] => []
  | p :: rest =>
    .centImage (pageImageFlowable p) ::
      (match rest with
       | [] => []
       | _ :: _ => .pageBreak :: storyImages rest)

/-- The full story of build_pdf (pdf.py lines 199-208): the placeholder
paragraph, the switch to the BODY template, a page break, then the
image pages. -/
def storyOf (page_images : List String) : List StoryElem :=
  .paragraph " " :: .nextPageTemplate .BODY :: .pageBreak ::
    storyImages page_images

/-- The engine state when build starts: no pages, doc.page = 0, the
first registered template (COVER) current, and a hanging PageBegin. -/
def initState : RState :=
  { pages := [], engPage := 0, curTpl := .COVER, nextTpl := none, cur := none }

/-- endBuild of the document engine: a trailing hanging PageBegin is
dropped (a story ending in PageBreak adds no blank page); otherwise the
open page is shown. -/
def finishPages (st : RState) : List Page :=
  match st.cur with
  | some op => st.pages ++ [op]
  | none => st.pages

/-- build_pdf (pdf.py lines 174-210): construct the story and run the
document engine over it, yielding the rendered pages or the first
propagated error. -/
def build_pdf (env : Env) (page_images : List String) :
    Except BuildError (List Page) :=
  match runStory env (storyOf page_images) initState with
  | .error err => .error err
  | .ok st => .ok (finishPages st)

/-- The cover page produced by build_pdf when the cover background has
intrinsic size (ciw, cih): the placeholder paragraph sits in its frame
and draw_cover has painted the background and title. -/
def coverPageOf (env : Env) (ciw cih : ℚ) : Page :=
  { tpl := .COVER, engPage := 1,
    decorations := coverDrawList pageW pageH ciw cih "resources/cover.jpg"
      env.file_name (-1) (58 / 10),
    items := [.text " "],
    availW := frameAvailW .COVER,
    remH := frameAvailH .COVER - env.paraH }

/-- A just-opened BODY page with doc.page = pg. -/
def freshBodyPage (env : Env) (pg : ℕ) : Page :=
  { tpl := .BODY, engPage := pg,
    decorations := draw_common_elements env.sw env.fs pageW pageH env.file_name
      env.total_visitors pg defaultTitle,
    items := [], availW := frameAvailW .BODY, remH := frameAvailH .BODY }

/-- The single flowable placed on the body page of a readable image p:
its CenteredImage at the draw size wrap computes inside the BODY frame. -/
def placedItems (env : Env) (p : String) : List Item :=
  match env.fs p with
  | some (iw, ih) =>
      let w := CenteredImage.wrap (pageImageFlowable p) iw ih
        (frameAvailW .BODY) (frameAvailH .BODY)
      [.image p w.dw w.dh]
  | none => []

/-- The finished body page of image p rendered at doc.page = pg. -/
def bodyPageOf (env : Env) (pg : ℕ) (p : String) : Page :=
  { tpl := .BODY, engPage := pg,
    decorations := draw_common_elements env.sw env.fs pageW pageH env.file_name
      env.total_visitors pg defaultTitle,
    items := placedItems env p,
    availW := frameAvailW .BODY,
    remH := frameAvailH .BODY - frameAvailH .BODY }

/-- The body pages of a list of images, the first rendered at
doc.page = k + 1. -/
def bodyPages (env : Env) : ℕ → List String → List Page
  | _, [] => []
  | k, p :: rest => bodyPageOf env (k + 1) p :: bodyPages env (k + 1) rest

/-- Select the string of a right-anchored text element; drawRightString
is used exactly once in pdf.py, for the footer page number. -/
def footerSel : Drawn → Option String
  | .text .right _ _ _ _ s => some s
  | _ => none

/-- The page-number strings painted on a page. -/
def footerPageStrings (pg : Page) : List String :=
  pg.decorations.filterMap footerSel

/-- Whether a drawn element is the decorative footer logo. -/
def isLogoElem : Drawn → Bool
  | .image p _ _ _ _ => p == logoPath
  | _ => false

/-- Remove the logo element from the decorations of a page. -/
def stripLogo (pg : Page) : Page :=
  { pg with decorations := pg.decorations.filter (fun d => !isLogoElem d) }

/-- A CenteredImage whose width hint is the zero value: the hint is
supplied, yet Python truthiness makes the wrap chain skip it. -/
def zeroWidthHint : CenteredImage :=
  { path := "img.png", draw_w := some 0, draw_h := some 5 }

/-- A CenteredImage with a width hint and the fit flag set, used to
instantiate the aspect-ratio theorem. -/
def fitDemo : CenteredImage := { path := "p", draw_w := some 10, fit := true }

/-- A concrete filesystem: the cover background, the footer logo and two
page images are readable, everything else is not. -/
def demoFS : String → Option (ℚ × ℚ) := fun p =>
  if p = "resources/cover.jpg" then some (100, 50)
  else if p = logoPath then some (30, 20)
  else if p = "a.png" then some (10, 10)
  else if p = "b.png" then some (40, 20)
  else none

/-- demoFS with the footer logo removed. -/
def demoFSNoLogo : String → Option (ℚ × ℚ) := fun p =>
  if p = logoPath then none else demoFS p

/-- demoFS with the second page image unreadable. -/
def demoFSBad : String → Option (ℚ × ℚ) := fun p =>
  if p = "b.png" then none else demoFS p

/-- A concrete build environment over demoFS. -/
def demoEnv : Env :=
  { fs := demoFS, sw := fun _ _ _ => 5, paraH := 12,
    file_name := "2025-08-01", total_visitors := 1234567 }

/-- The demo environment with the footer logo missing. -/
def demoEnvNL : Env := { demoEnv with fs := demoFSNoLogo }

/-- The demo environment with one unreadable page image. -/
def demoEnvBad : Env := { demoEnv with fs := demoFSBad }

end ElBulli

namespace ElBulli

lemma truthy_iff (o : Option ℚ) : truthy o = true ↔ ∃ x, o = some x ∧ x ≠ 0 := by
  cases o <;> simp [truthy]

lemma wrapBaseSize_scale (c : CenteredImage) (iw ih s : ℚ) (hsc : c.scale = some s) :
    wrapBaseSize c iw ih = (iw * s, ih * s) := by
  simp [wrapBaseSize, hsc]

/-- Every branch of the hint chain scales both intrinsic dimensions by
one common positive factor, provided the supplied hints are
non-negative and a supplied scale factor is positive. -/
lemma wrapBaseSize_uniform (c : CenteredImage) (iw ih : ℚ)
    (hiw : 0 < iw) (hih : 0 < ih)
    (hs : ∀ s, c.scale = some s → 0 < s)
    (hw : ∀ w, c.draw_w = some w → 0 ≤ w)
    (hh : ∀ h, c.draw_h = some h → 0 ≤ h) :
    ∃ r : ℚ, 0 < r ∧ wrapBaseSize c iw ih = (iw * r, ih * r) := by
  rcases hsc : c.scale with _ | s
  · by_cases tw : truthy c.draw_w = true
    · obtain ⟨w, hdw, hwne⟩ := (truthy_iff _).1 tw
      have hwpos : 0 < w := lt_of_le_of_ne (hw w hdw) (Ne.symm hwne)
      have tw' : truthy (some w) = true := hdw ▸ tw
      by_cases th : truthy c.draw_h = true
      · obtain ⟨h, hdh, hhne⟩ := (truthy_iff _).1 th
        have th' : truthy (some h) = true := hdh ▸ th
        have hhpos : 0 < h := lt_of_le_of_ne (hh h hdh) (Ne.symm hhne)
        refine ⟨min (w / iw) (h / ih),
          lt_min (div_pos hwpos hiw) (div_pos hhpos hih), ?_⟩
        simp [wrapBaseSize, hsc, hdw, hdh, tw', th']
      · have thf : truthy c.draw_h = false := by simpa using th
        refine ⟨w / iw, div_pos hwpos hiw, ?_⟩
        simp [wrapBaseSize, hsc, hdw, tw', thf]
    · have twf : truthy c.draw_w = false := by simpa using tw
      by_cases th : truthy c.draw_h = true
      · obtain ⟨h, hdh, hhne⟩ := (truthy_iff _).1 th
        have th' : truthy (some h) = true := hdh ▸ th
        have hhpos : 0 < h := lt_of_le_of_ne (hh h hdh) (Ne.symm hhne)
        refine ⟨h / ih, div_pos hhpos hih, ?_⟩
        simp [wrapBaseSize, hsc, hdh, th', twf]
      · have thf : truthy c.draw_h = false := by simpa using th
        refine ⟨1, one_pos, ?_⟩
        simp [wrapBaseSize, hsc, twf, thf]
  · exact ⟨s, hs s hsc, wrapBaseSize_scale c iw ih s hsc⟩

/-- C10: for every image path and every available area, CenteredImage.wrap
returns exactly (availWidth, availHeight) to the layout engine, regardless
of the smaller draw size it computed and stored, so the flowable always
claims the entire frame. -/
theorem wrap_returns_full_avail (c : CenteredImage) (iw ih availWidth availHeight : ℚ) :
    (c.wrap iw ih availWidth availHeight).ret = (availWidth, availHeight) := rfl

/-- C8: CenteredImage.draw paints at x = (availW - dw) / 2 minus a fixed
1 cm inward correction and at y = (availH - dh) / 2 exactly, for every
image and every available area. -/
theorem draw_centering_offset (c : CenteredImage) (iw ih aW aH : ℚ) :
    drawXY (c.wrap iw ih aW aH) =
      ((aW - (c.wrap iw ih aW aH).dw) / 2 - 1 * cm,
       (aH - (c.wrap iw ih aW aH).dh) / 2) := rfl

/-- C9, counterexample: at page height 2 cm the cover title y-coordinate
computed by draw_cover, with the configured default distance 5.8 cm,
exceeds pageHeight - 1.5 cm, so the clamp does not keep the title within
the stated interval for every page height. -/
theorem coverTextY_counterexample :
    ¬ coverTextY (58 / 10) (2 * cm) ≤ 2 * cm - 3 / 2 * cm := by
  simp only [coverTextY, cm]
  norm_num [min_def, max_def]

/-- C9, amended: whenever the page is at least 2.5 cm tall (so the clamp
interval is non-empty), the cover title y-coordinate lies in
[1 cm, pageHeight - 1.5 cm]. -/
theorem coverTextY_clamped (t h : ℚ) (hh : 5 / 2 * cm ≤ h) :
    1 * cm ≤ coverTextY t h ∧ coverTextY t h ≤ h - 3 / 2 * cm := by
  refine ⟨le_max_left _ _, max_le (by linarith) (min_le_right _ _)⟩

/-- Witness for C9 at the real page height of the module, landscape A4
(21 cm tall), with the default title distance 5.8 cm. -/
theorem coverTextY_clamped_witness :
    1 * cm ≤ coverTextY (58 / 10) (21 * cm) ∧
      coverTextY (58 / 10) (21 * cm) ≤ 21 * cm - 3 / 2 * cm :=
  coverTextY_clamped (58 / 10) (21 * cm) (by norm_num [cm])

/-- C7: the footer visitor count is grouped in thousands with dots; for
totalVisitors = 1234567 the rendered string is "1.234.567". -/
theorem vis_str_thousands : vis_str 1234567 = "1.234.567" := by decide

/-- C2, counterexample: with a supplied width hint of 0 and height hint
of 5, the specification precedence (both hints given, scale by the
smaller ratio) predicts draw size (0, 0) for a 2 x 5 image, but the wrap
chain treats the zero hint as absent and scales by the height ratio
alone, yielding (2, 5). -/
theorem wrap_precedence_counterexample :
    wrapBaseSize zeroWidthHint 2 5 ≠ specHintSize zeroWidthHint 2 5 := by
  simp [wrapBaseSize, specHintSize, zeroWidthHint, truthy, min_def, Prod.ext_iff]

/-- C2, amended: the hint precedence of CenteredImage.wrap holds with
"given" read as "supplied with a nonzero value" for the width/height
hints (Python truthiness: a zero hint is treated as absent): a scale
factor takes precedence and scales both dimensions; else two nonzero
hints scale both dimensions by the smaller ratio; else one nonzero hint
scales both by its single ratio; else the intrinsic size is used. -/
theorem wrap_hint_precedence (c : CenteredImage) (iw ih : ℚ) :
    (∀ s, c.scale = some s → wrapBaseSize c iw ih = (iw * s, ih * s)) ∧
    (c.scale = none → ∀ w h, c.draw_w = some w → c.draw_h = some h →
      w ≠ 0 → h ≠ 0 →
      wrapBaseSize c iw ih =
        (iw * min (w / iw) (h / ih), ih * min (w / iw) (h / ih))) ∧
    (c.scale = none → ∀ w, c.draw_w = some w → w ≠ 0 →
      (c.draw_h = none ∨ c.draw_h = some 0) →
      wrapBaseSize c iw ih = (iw * (w / iw), ih * (w / iw))) ∧
    (c.scale = none → (c.draw_w = none ∨ c.draw_w = some 0) →
      ∀ h, c.draw_h = some h → h ≠ 0 →
      wrapBaseSize c iw ih = (iw * (h / ih), ih * (h / ih))) ∧
    (c.scale = none → (c.draw_w = none ∨ c.draw_w = some 0) →
      (c.draw_h = none ∨ c.draw_h = some 0) →
      wrapBaseSize c iw ih = (iw, ih)) := by
  refine ⟨fun s hs => wrapBaseSize_scale c iw ih s hs, ?_, ?_, ?_, ?_⟩
  · intro hsc w h hdw hdh hwne hhne
    have tw' : truthy (some w) = true := by simp [truthy, hwne]
    have th' : truthy (some h) = true := by simp [truthy, hhne]
    simp [wrapBaseSize, hsc, hdw, hdh, tw', th']
  · intro hsc w hdw hwne hdh
    have tw' : truthy (some w) = true := by simp [truthy, hwne]
    have thf : truthy c.draw_h = false := by
      rcases hdh with h | h <;> simp [truthy, h]
    simp [wrapBaseSize, hsc, hdw, tw', thf]
  · intro hsc hdw h hdh hhne
    have th' : truthy (some h) = true := by simp [truthy, hhne]
    have twf : truthy c.draw_w = false := by
      rcases hdw with h' | h' <;> simp [truthy, h']
    simp [wrapBaseSize, hsc, hdh, th', twf]
  · intro hsc hdw hdh
    have twf : truthy c.draw_w = false := by
      rcases hdw with h' | h' <;> simp [truthy, h']
    have thf : truthy c.draw_h = false := by
      rcases hdh with h' | h' <;> simp [truthy, h']
    simp [wrapBaseSize, hsc, twf, thf]

/-- Witness for the amended C2: a scale factor of 2 on a 3 x 4 image
yields draw size (6, 8), whatever the other hints would say. -/
theorem wrap_hint_precedence_witness :
    wrapBaseSize { path := "img.png", scale := some 2 } 3 4 = (3 * 2, 4 * 2) :=
  (wrap_hint_precedence { path := "img.png", scale := some 2 } 3 4).1 2 rfl

lemma beginPage_body (env : Env) (st : RState) (ht : st.curTpl = .BODY) :
    beginPage env st =
      .ok { st with
            engPage := st.engPage + 1,
            cur := some (freshBodyPage env (st.engPage + 1)) } := by
  simp [beginPage, onPageDraw, ht, freshBodyPage]

lemma step_pageBreak (env : Env) (st : RState) (op : Page) (h : st.cur = some op) :
    step env st .pageBreak = .ok (closePage st op) := by
  simp [step, cleanHanging, h]

lemma step_nextTpl (env : Env) (st : RState) (op : Page) (t : Tpl)
    (h : st.cur = some op) :
    step env st (.nextPageTemplate t) = .ok { st with nextTpl := some t } := by
  simp [step, cleanHanging, h]

lemma step_image (env : Env) (st : RState) (op : Page) (c : CenteredImage)
    (iw ih : ℚ) (h : st.cur = some op) (hfs : env.fs c.path = some (iw, ih)) :
    step env st (.centImage c) =
      .ok { st with
            cur := some (placeItem
              (.image c.path (c.wrap iw ih op.availW op.remH).dw
                (c.wrap iw ih op.availW op.remH).dh) op.remH op) } := by
  simp only [step, cleanHanging, h, hfs]
  rfl

lemma step_image_bad (env : Env) (st : RState) (op : Page) (c : CenteredImage)
    (h : st.cur = some op) (hfs : env.fs c.path = none) :
    step env st (.centImage c) = .error (.imageUnreadable c.path) := by
  simp [step, cleanHanging, h, hfs]

lemma step_image_fresh (env : Env) (st : RState) (c : CenteredImage) (iw ih : ℚ)
    (h : st.cur = none) (ht : st.curTpl = .BODY)
    (hfs : env.fs c.path = some (iw, ih)) :
    step env st (.centImage c) =
      .ok { st with
            engPage := st.engPage + 1,
            cur := some (placeItem
              (.image c.path
                (c.wrap iw ih (frameAvailW .BODY) (frameAvailH .BODY)).dw
                (c.wrap iw ih (frameAvailW .BODY) (frameAvailH .BODY)).dh)
              (frameAvailH .BODY) (freshBodyPage env (st.engPage + 1))) } := by
  simp only [step, cleanHanging, h, beginPage_body env st ht, hfs, freshBodyPage]
  rfl

lemma step_image_fresh_bad (env : Env) (st : RState) (c : CenteredImage)
    (h : st.cur = none) (ht : st.curTpl = .BODY) (hfs : env.fs c.path = none) :
    step env st (.centImage c) = .error (.imageUnreadable c.path) := by
  simp only [step, cleanHanging, h, beginPage_body env st ht, hfs, freshBodyPage]

/-- Processing the three leading story elements (placeholder paragraph,
template switch, page break) from the initial state yields exactly the
cover page and leaves the engine hanging a BODY page begin. -/
lemma runStory_prefix (env : Env) (imgs : List String) (ciw cih : ℚ)
    (hc : env.fs "resources/cover.jpg" = some (ciw, cih))
    (hp : env.paraH ≤ frameAvailH .COVER) :
    runStory env (storyOf imgs) initState =
      runStory env (storyImages imgs)
        ⟨[coverPageOf env ciw cih], 1, .BODY, none, none⟩ := by
  simp [storyOf, runStory, step, cleanHanging, initState, beginPage, onPageDraw,
    draw_cover, hc, hp, closePage, placeItem, coverPageOf]

/-- Running the image part of the story from a hanging BODY page begin
renders one body page per readable image, in order. -/
lemma runStory_images_ok (env : Env) :
    ∀ (rest : List String) (p : String) (P : List Page) (k : ℕ),
      (env.fs p).isSome = true → (∀ q ∈ rest, (env.fs q).isSome = true) →
      (runStory env (storyImages (p :: rest)) ⟨P, k, .BODY, none, none⟩).map
          finishPages =
        .ok (P ++ bodyPages env k (p :: rest)) := by
  intro rest
  induction rest with
  | nil =>
    intro p P k hp _
    obtain ⟨⟨iw, ih⟩, hfs⟩ := Option.isSome_iff_exists.1 hp
    rw [storyImages]
    simp only [runStory,
      step_image_fresh env ⟨P, k, .BODY, none, none⟩ (pageImageFlowable p) iw ih
        rfl rfl hfs]
    simp [finishPages, bodyPages, bodyPageOf, placedItems, hfs, freshBodyPage,
      placeItem, pageImageFlowable, Except.map]
  | cons q rest ihr =>
    intro p P k hp hq
    obtain ⟨⟨iw, ih⟩, hfs⟩ := Option.isSome_iff_exists.1 hp
    have hres := ihr q (P ++ [bodyPageOf env (k + 1) p]) (k + 1)
      (hq q (by simp)) (fun r hr => hq r (by simp [hr]))
    have hskip : runStory env (storyImages (p :: q :: rest)) ⟨P, k, .BODY, none, none⟩ =
        runStory env (storyImages (q :: rest))
          ⟨P ++ [bodyPageOf env (k + 1) p], k + 1, .BODY, none, none⟩ := by
      rw [storyImages]
      simp only [runStory,
        step_image_fresh env ⟨P, k, .BODY, none, none⟩ (pageImageFlowable p) iw ih
          rfl rfl hfs]
      rw [step_pageBreak env _ _ rfl]
      simp only [runStory]
      congr 1
      simp [closePage, placeItem, freshBodyPage, bodyPageOf, placedItems, hfs,
        pageImageFlowable]
    rw [hskip, hres]
    have hlist : P ++ [bodyPageOf env (k + 1) p] ++ bodyPages env (k + 1) (q :: rest) =
        P ++ bodyPages env k (p :: q :: rest) := by
      rw [show bodyPages env k (p :: q :: rest) =
          bodyPageOf env (k + 1) p :: bodyPages env (k + 1) (q :: rest) from rfl]
      simp
    rw [hlist]

/-- Running the image part of the story from a hanging BODY page begin
aborts with the IOError of the first unreadable image. -/
lemma runStory_images_err (env : Env) :
    ∀ (l : List String) (P : List Page) (k : ℕ),
      (∃ p ∈ l, env.fs p = none) →
      ∃ q ∈ l, env.fs q = none ∧
        runStory env (storyImages l) ⟨P, k, .BODY, none, none⟩ =
          .error (.imageUnreadable q) := by
  intro l
  induction l with
  | nil =>
    rintro P k ⟨p, hmem, -⟩
    cases hmem
  | cons p rest ihr =>
    rintro P k ⟨p0, hmem, hbad⟩
    cases hfp : env.fs p with
    | none =>
      refine ⟨p, by simp, hfp, ?_⟩
      cases rest with
      | nil =>
        rw [storyImages]
        simp only [runStory,
          step_image_fresh_bad env ⟨P, k, .BODY, none, none⟩ (pageImageFlowable p)
            rfl rfl hfp]
        rfl
      | cons q rest' =>
        rw [storyImages]
        simp only [runStory,
          step_image_fresh_bad env ⟨P, k, .BODY, none, none⟩ (pageImageFlowable p)
            rfl rfl hfp]
        rfl
    | some v =>
      obtain ⟨iw, ih⟩ := v
      have hp0 : p0 ∈ rest := by
        rcases List.mem_cons.1 hmem with h | h
        · subst h; rw [hfp] at hbad; cases hbad
        · exact h
      cases rest with
      | nil => cases hp0
      | cons q rest' =>
        obtain ⟨q', hq'mem, hq'bad, hq'run⟩ :=
          ihr (P ++ [bodyPageOf env (k + 1) p]) (k + 1) ⟨p0, hp0, hbad⟩
        refine ⟨q', List.mem_cons_of_mem _ hq'mem, hq'bad, ?_⟩
        rw [storyImages]
        simp only [runStory,
          step_image_fresh env ⟨P, k, .BODY, none, none⟩ (pageImageFlowable p)
            iw ih rfl rfl hfp]
        rw [step_pageBreak env _ _ rfl]
        simp only [runStory]
        rw [← hq'run]
        congr 1
        simp [closePage, placeItem, freshBodyPage, bodyPageOf, placedItems, hfp,
          pageImageFlowable]

lemma build_pdf_eq_map (env : Env) (imgs : List String) :
    build_pdf env imgs =
      (runStory env (storyOf imgs) initState).map finishPages := by
  unfold build_pdf
  cases runStory env (storyOf imgs) initState <;> rfl

/-- The rendered document of build_pdf, in full: the cover page followed
by one body page per image, with doc.page counting from 1 on the cover. -/
lemma build_pdf_master (env : Env) (imgs : List String) (ciw cih : ℚ)
    (hc : env.fs "resources/cover.jpg" = some (ciw, cih))
    (hp : env.paraH ≤ frameAvailH .COVER)
    (him : ∀ p ∈ imgs, (env.fs p).isSome = true) :
    build_pdf env imgs = .ok (coverPageOf env ciw cih :: bodyPages env 1 imgs) := by
  rw [build_pdf_eq_map, runStory_prefix env imgs ciw cih hc hp]
  cases imgs with
  | nil => simp [storyImages, runStory, finishPages, bodyPages, Except.map]
  | cons p rest =>
    rw [runStory_images_ok env rest p [coverPageOf env ciw cih] 1
      (him p (by simp)) (fun q hq => him q (by simp [hq]))]
    rfl

lemma bodyPages_length (env : Env) :
    ∀ (l : List String) (k : ℕ), (bodyPages env k l).length = l.length := by
  intro l
  induction l with
  | nil => intro k; rfl
  | cons p rest ihr => intro k; simp [bodyPages, ihr (k + 1)]

lemma bodyPages_get (env : Env) :
    ∀ (l : List String) (k i : ℕ),
      (bodyPages env k l)[i]? = (l[i]?).map (fun p => bodyPageOf env (k + i + 1) p) := by
  intro l
  induction l with
  | nil => intro k i; rfl
  | cons p rest ihr =>
    intro k i
    cases i with
    | zero => simp [bodyPages]
    | succ j =>
      rw [show bodyPages env k (p :: rest) =
          bodyPageOf env (k + 1) p :: bodyPages env (k + 1) rest from rfl]
      simp only [List.getElem?_cons_succ, ihr (k + 1) j]
      rw [show k + 1 + j + 1 = k + (j + 1) + 1 from by omega]

lemma bodyPages_mem (env : Env) :
    ∀ (l : List String) (k : ℕ) (pg : Page), pg ∈ bodyPages env k l →
      ∃ n p, pg = bodyPageOf env n p := by
  intro l
  induction l with
  | nil => intro k pg h; cases h
  | cons p rest ihr =>
    intro k pg h
    rcases List.mem_cons.1 h with h | h
    · exact ⟨k + 1, p, h⟩
    · exact ihr (k + 1) pg h

/-- C3: the computed draw size preserves the intrinsic aspect ratio
exactly, and when the fit flag is set the extra shrink factor is clamped
to at most 1 and the final draw size fits inside the available area
(for positive intrinsic sizes, positive available area, non-negative
width/height hints and a positive scale factor when supplied). -/
theorem wrap_preserves_aspect (c : CenteredImage) (iw ih aW aH : ℚ)
    (hiw : 0 < iw) (hih : 0 < ih) (haW : 0 < aW) (haH : 0 < aH)
    (hs : ∀ s, c.scale = some s → 0 < s)
    (hw : ∀ w, c.draw_w = some w → 0 ≤ w)
    (hh : ∀ h, c.draw_h = some h → 0 ≤ h) :
    (c.wrap iw ih aW aH).dw / (c.wrap iw ih aW aH).dh = iw / ih ∧
    (c.fit = true →
      fitScale aW aH (wrapBaseSize c iw ih).1 (wrapBaseSize c iw ih).2 ≤ 1 ∧
      (c.wrap iw ih aW aH).dw ≤ aW ∧ (c.wrap iw ih aW aH).dh ≤ aH) := by
  obtain ⟨r, hr, hbase⟩ := wrapBaseSize_uniform c iw ih hiw hih hs hw hh
  have hiwr : (0 : ℚ) < iw * r := mul_pos hiw hr
  have hihr : (0 : ℚ) < ih * r := mul_pos hih hr
  cases hf : c.fit with
  | false =>
    constructor
    · simp only [CenteredImage.wrap, hf, hbase, if_false, Bool.false_eq_true]
      exact mul_div_mul_right _ _ (ne_of_gt hr)
    · intro h; exact absurd h (by simp [hf])
  | true =>
    have hF : 0 < fitScale aW aH (iw * r) (ih * r) :=
      lt_min (div_pos haW hiwr) (lt_min (div_pos haH hihr) one_pos)
    constructor
    · simp only [CenteredImage.wrap, hf, hbase, if_true]
      rw [mul_div_mul_right _ _ (ne_of_gt hF)]
      exact mul_div_mul_right _ _ (ne_of_gt hr)
    · intro _
      refine ⟨?_, ?_, ?_⟩
      · rw [hbase]
        exact le_trans (min_le_right _ _) (min_le_right _ _)
      · simp only [CenteredImage.wrap, hf, hbase, if_true]
        calc iw * r * fitScale aW aH (iw * r) (ih * r)
            ≤ iw * r * (aW / (iw * r)) :=
              mul_le_mul_of_nonneg_left (min_le_left _ _) (le_of_lt hiwr)
          _ = aW := by rw [← mul_div_assoc, mul_div_cancel_left₀ _ (ne_of_gt hiwr)]
      · simp only [CenteredImage.wrap, hf, hbase, if_true]
        calc ih * r * fitScale aW aH (iw * r) (ih * r)
            ≤ ih * r * (aH / (ih * r)) :=
              mul_le_mul_of_nonneg_left
                (le_trans (min_le_right _ _) (min_le_left _ _)) (le_of_lt hihr)
          _ = aH := by rw [← mul_div_assoc, mul_div_cancel_left₀ _ (ne_of_gt hihr)]

/-- Witness for C3: a 4 x 2 image with a width hint of 10 and the fit
flag set, wrapped into a 5 x 5 area. -/
theorem wrap_preserves_aspect_witness :
    (fitDemo.wrap 4 2 5 5).dw / (fitDemo.wrap 4 2 5 5).dh = 4 / 2 ∧
    (fitDemo.fit = true →
      fitScale 5 5 (wrapBaseSize fitDemo 4 2).1 (wrapBaseSize fitDemo 4 2).2 ≤ 1 ∧
      (fitDemo.wrap 4 2 5 5).dw ≤ 5 ∧ (fitDemo.wrap 4 2 5 5).dh ≤ 5) :=
  wrap_preserves_aspect fitDemo 4 2 5 5 (by norm_num) (by norm_num) (by norm_num)
    (by norm_num) (fun s h => by simp [fitDemo] at h)
    (fun w h => by simp only [fitDemo, Option.some.injEq] at h; subst h; norm_num)
    (fun h h' => by simp [fitDemo] at h')

/-- C1: for a pageImages list of length N with every image readable, a
readable cover background and a placeholder paragraph that fits the
cover frame, build_pdf renders exactly N + 1 pages: page 1 is the cover
and for every i the image at index i of pageImages is the sole flowable
on page i + 2, in input order with no reordering, deduplication or
skipping; an empty list yields the single cover page. -/
theorem build_pdf_page_structure (env : Env) (imgs : List String) (ciw cih : ℚ)
    (hc : env.fs "resources/cover.jpg" = some (ciw, cih))
    (hp : env.paraH ≤ frameAvailH .COVER)
    (him : ∀ p ∈ imgs, (env.fs p).isSome = true) :
    ∃ ps, build_pdf env imgs = .ok ps ∧
      ps.length = imgs.length + 1 ∧
      (∃ cpg, ps[0]? = some cpg ∧ cpg.tpl = .COVER) ∧
      (∀ i p, imgs[i]? = some p →
        ∃ pg, ps[i + 1]? = some pg ∧ pg.tpl = .BODY ∧
          ∃ dw dh, pg.items = [Item.image p dw dh]) := by
  refine ⟨_, build_pdf_master env imgs ciw cih hc hp him, ?_, ?_, ?_⟩
  · simp [bodyPages_length]
  · exact ⟨coverPageOf env ciw cih, by simp, rfl⟩
  · intro i p hip
    have hmem : p ∈ imgs := by
      obtain ⟨hlt, hget⟩ := List.getElem?_eq_some.1 hip
      exact hget ▸ List.getElem_mem hlt
    obtain ⟨⟨iw, ih⟩, hfs⟩ := Option.isSome_iff_exists.1 (him p hmem)
    refine ⟨bodyPageOf env (1 + i + 1) p, ?_, rfl, ?_⟩
    · simp [List.getElem?_cons_succ, bodyPages_get, hip]
    · exact ⟨((pageImageFlowable p).wrap iw ih (frameAvailW .BODY)
          (frameAvailH .BODY)).dw,
        ((pageImageFlowable p).wrap iw ih (frameAvailW .BODY)
          (frameAvailH .BODY)).dh,
        by simp [bodyPageOf, placedItems, hfs]⟩

/-- Witness for C1: a two-image build over the demo environment. -/
theorem build_pdf_page_structure_witness :
    ∃ ps, build_pdf demoEnv ["a.png", "b.png"] = .ok ps ∧
      ps.length = (["a.png", "b.png"] : List String).length + 1 ∧
      (∃ cpg, ps[0]? = some cpg ∧ cpg.tpl = .COVER) ∧
      (∀ i p, (["a.png", "b.png"] : List String)[i]? = some p →
        ∃ pg, ps[i + 1]? = some pg ∧ pg.tpl = .BODY ∧
          ∃ dw dh, pg.items = [Item.image p dw dh]) :=
  build_pdf_page_structure demoEnv ["a.png", "b.png"] 100 50 rfl
    (by norm_num [demoEnv, frameAvailH, cm]) (by decide)

/-- C4: an unreadable page image aborts the whole build: build_pdf
propagates an IOError-class failure naming an unreadable image of the
list, and produces no page list. -/
theorem build_pdf_unreadable_aborts (env : Env) (imgs : List String)
    (ciw cih : ℚ) (p : String)
    (hc : env.fs "resources/cover.jpg" = some (ciw, cih))
    (hp : env.paraH ≤ frameAvailH .COVER)
    (hmem : p ∈ imgs) (hbad : env.fs p = none) :
    ∃ q ∈ imgs, env.fs q = none ∧
      build_pdf env imgs = .error (.imageUnreadable q) := by
  obtain ⟨q, hq, hqbad, hrun⟩ :=
    runStory_images_err env imgs [coverPageOf env ciw cih] 1 ⟨p, hmem, hbad⟩
  refine ⟨q, hq, hqbad, ?_⟩
  rw [build_pdf_eq_map, runStory_prefix env imgs ciw cih hc hp, hrun]
  rfl

/-- Witness for C4: the demo build with b.png unreadable fails with the
IOError for b.png. -/
theorem build_pdf_unreadable_witness :
    ∃ q ∈ (["a.png", "b.png"] : List String), demoEnvBad.fs q = none ∧
      build_pdf demoEnvBad ["a.png", "b.png"] = .error (.imageUnreadable q) :=
  build_pdf_unreadable_aborts demoEnvBad ["a.png", "b.png"] 100 50 "b.png" rfl
    (by norm_num [demoEnvBad, demoEnv, frameAvailH, cm]) (by decide) rfl

lemma footer_draw_common (sw : String → String → ℚ → ℚ)
    (fs : String → Option (ℚ × ℚ)) (W H : ℚ) (fn : String) (tv pg : ℕ)
    (t : String) :
    (draw_common_elements sw fs W H fn tv pg t).filterMap footerSel =
      [intStr ((pg : ℤ) - 1)] := by
  cases hl : fs logoPath with
  | none => simp [draw_common_elements, hl, footerSel]
  | some v =>
    obtain ⟨iw, ih⟩ := v
    simp [draw_common_elements, hl, footerSel]

lemma footer_bodyPageOf (env : Env) (pg : ℕ) (p : String) :
    footerPageStrings (bodyPageOf env pg p) = [intStr ((pg : ℤ) - 1)] := by
  simp only [footerPageStrings, bodyPageOf]
  exact footer_draw_common env.sw env.fs pageW pageH env.file_name
    env.total_visitors pg defaultTitle

lemma footer_coverPageOf (env : Env) (ciw cih : ℚ) :
    footerPageStrings (coverPageOf env ciw cih) = [] := by
  simp [footerPageStrings, coverPageOf, coverDrawList, footerSel]

/-- C6: the footer page number on every body page is the decimal string
of doc.page minus one, body pages sit at list index i with doc.page
equal to i + 1 (so the first body page shows 1 and each subsequent body
page increments by 1), and the cover page draws no page number. -/
theorem footer_page_numbers (env : Env) (imgs : List String) (ciw cih : ℚ)
    (hc : env.fs "resources/cover.jpg" = some (ciw, cih))
    (hp : env.paraH ≤ frameAvailH .COVER)
    (him : ∀ p ∈ imgs, (env.fs p).isSome = true) :
    ∃ ps, build_pdf env imgs = .ok ps ∧
      (∀ pg ∈ ps, pg.tpl = .BODY →
        footerPageStrings pg = [intStr ((pg.engPage : ℤ) - 1)]) ∧
      (∀ i pg, ps[i]? = some pg → pg.tpl = .BODY → pg.engPage = i + 1) ∧
      (∃ cpg, ps[0]? = some cpg ∧ cpg.tpl = .COVER ∧
        footerPageStrings cpg = []) := by
  refine ⟨_, build_pdf_master env imgs ciw cih hc hp him, ?_, ?_, ?_⟩
  · intro pg hpg hbody
    rcases List.mem_cons.1 hpg with h | h
    · exact absurd (h ▸ hbody) (by simp [coverPageOf])
    · obtain ⟨n, q, rfl⟩ := bodyPages_mem env imgs 1 pg h
      rw [show (bodyPageOf env n q).engPage = n from rfl]
      exact footer_bodyPageOf env n q
  · intro i pg hget hbody
    cases i with
    | zero =>
      have hget' : coverPageOf env ciw cih = pg := by simpa using hget
      exact absurd (hget' ▸ hbody) (by simp [coverPageOf])
    | succ j =>
      rw [List.getElem?_cons_succ, bodyPages_get env imgs 1 j] at hget
      cases himg : imgs[j]? with
      | none => rw [himg] at hget; cases hget
      | some q =>
        rw [himg] at hget
        have hget2 : bodyPageOf env (1 + j + 1) q = pg := by simpa using hget
        rw [← hget2]
        simp only [bodyPageOf]
        omega
  · exact ⟨coverPageOf env ciw cih, by simp, rfl, footer_coverPageOf env ciw cih⟩

/-- Witness for C6: a one-image build over the demo environment. -/
theorem footer_page_numbers_witness :
    ∃ ps, build_pdf demoEnv ["a.png"] = .ok ps ∧
      (∀ pg ∈ ps, pg.tpl = .BODY →
        footerPageStrings pg = [intStr ((pg.engPage : ℤ) - 1)]) ∧
      (∀ i pg, ps[i]? = some pg → pg.tpl = .BODY → pg.engPage = i + 1) ∧
      (∃ cpg, ps[0]? = some cpg ∧ cpg.tpl = .COVER ∧
        footerPageStrings cpg = []) :=
  footer_page_numbers demoEnv ["a.png"] 100 50 rfl
    (by norm_num [demoEnv, frameAvailH, cm]) (by decide)

lemma draw_common_strip (sw : String → String → ℚ → ℚ)
    (fs1 fs2 : String → Option (ℚ × ℚ)) (W H : ℚ) (fn : String) (tv pg : ℕ)
    (t : String) (h1 : fs1 logoPath = none) :
    draw_common_elements sw fs1 W H fn tv pg t =
      (draw_common_elements sw fs2 W H fn tv pg t).filter
        (fun d => !isLogoElem d) := by
  cases h2 : fs2 logoPath with
  | none => simp [draw_common_elements, h1, h2, isLogoElem]
  | some v =>
    obtain ⟨iw, ih⟩ := v
    simp [draw_common_elements, h1, h2, isLogoElem]

lemma stripLogo_bodyPages (env : Env) (fs' : String → Option (ℚ × ℚ))
    (hlogo : env.fs logoPath = none) :
    ∀ (l : List String) (k : ℕ), (∀ p ∈ l, env.fs p = fs' p) →
      (bodyPages { env with fs := fs' } k l).map stripLogo =
        bodyPages env k l := by
  intro l
  induction l with
  | nil => intro k _; rfl
  | cons p rest ihr =>
    intro k hagree
    simp only [bodyPages, List.map_cons,
      ihr (k + 1) (fun q hq => hagree q (by simp [hq]))]
    have hfsp : env.fs p = fs' p := hagree p (by simp)
    have hdec := draw_common_strip env.sw env.fs fs' pageW pageH env.file_name
      env.total_visitors (k + 1) defaultTitle hlogo
    simp [stripLogo, bodyPageOf, placedItems, hdec, hfsp]

/-- C5: when the footer logo asset is absent but every other input is
valid, the build still succeeds and its pages are exactly the pages of
the with-logo build with only the logo element removed: every other
header/footer element is drawn with unchanged position. -/
theorem missing_logo_swallowed (env : Env) (fs' : String → Option (ℚ × ℚ))
    (imgs : List String) (ciw cih : ℚ)
    (hagree : ∀ p, p ≠ logoPath → env.fs p = fs' p)
    (hlogo : env.fs logoPath = none)
    (hc : fs' "resources/cover.jpg" = some (ciw, cih))
    (hp : env.paraH ≤ frameAvailH .COVER)
    (him : ∀ p ∈ imgs, (fs' p).isSome = true)
    (hnot : logoPath ∉ imgs) :
    ∃ ps, build_pdf { env with fs := fs' } imgs = .ok ps ∧
      build_pdf env imgs = .ok (ps.map stripLogo) := by
  have hcov : ("resources/cover.jpg" : String) ≠ logoPath := by decide
  have hc2 : env.fs "resources/cover.jpg" = some (ciw, cih) := by
    rw [hagree _ hcov]; exact hc
  have hag2 : ∀ p ∈ imgs, env.fs p = fs' p := fun p hmem =>
    hagree p (fun h => hnot (h ▸ hmem))
  have him2 : ∀ p ∈ imgs, (env.fs p).isSome = true := fun p hmem => by
    rw [hag2 p hmem]; exact him p hmem
  refine ⟨_, build_pdf_master { env with fs := fs' } imgs ciw cih hc hp him, ?_⟩
  rw [build_pdf_master env imgs ciw cih hc2 hp him2]
  simp only [List.map_cons]
  rw [stripLogo_bodyPages env fs' hlogo imgs 1 hag2]
  congr 2

/-- Witness for C5: the one-image demo build with and without the logo. -/
theorem missing_logo_witness :
    ∃ ps, build_pdf { demoEnvNL with fs := demoFS } ["a.png"] = .ok ps ∧
      build_pdf demoEnvNL ["a.png"] = .ok (ps.map stripLogo) :=
  missing_logo_swallowed demoEnvNL demoFS ["a.png"] 100 50
    (fun p hp => by simp [demoEnvNL, demoEnv, demoFSNoLogo, hp])
    rfl rfl (by norm_num [demoEnvNL, demoEnv, frameAvailH, cm])
    (by decide) (by decide)

end ElBulli
